import Mathlib

/-!
Verification of the session-refreshing BTC price scraper (src/scrap.rs).

The development shallowly embeds the two cores of the program:

* the price-extraction function `find_price` (src/scrap.rs:128-140), modelled
  over `List Char` (Rust byte indices coincide with character indices on the
  ASCII inputs the claims are about; the marker itself is pure ASCII, so
  `start + 26` is exactly the end of the marker occurrence in both views);
* the retry/refresh state machine of `query_price` / `Agent::request` /
  `Agent::refresh_data` (src/scrap.rs:10-125), modelled as state-passing
  functions over an environment that supplies the outcome of each page
  request and each cookie-service response, threading a counter/trace state.

Rust `f64` parsing of the all-digit strings produced by the scan fails
exactly on the empty string; a successful parse is represented by the exact
numeric value of the digit run, the actual double being the IEEE-754
rounding of that value (`f64Overflows` marks the values whose rounding
overflows to +inf).  The byte slice `&tail[..42]` is modelled byte-exactly
via UTF-8 character sizes: it panics when fewer than 42 bytes remain or
when byte offset 42 falls inside a multi-byte character.  A Rust panic
(that slice, the `expect("Must return string cookie.")`) is modelled as an
explicit `panicked` result, distinct from clean failure.
-/

/-- Outcome of `find_price`: Rust `Option<f64>` plus an explicit constructor
for the panics the function can raise (slicing `&tail[..42]` when fewer
than 42 bytes follow the marker, or when byte offset 42 falls inside a
multi-byte character). -/
inductive FindResult where
  | panicked : FindResult
  | notFound : FindResult
  | found : Nat → FindResult
  deriving DecidableEq

/-- The literal marker searched by `text.find(r#"{"name":"Bitcoin","price":"#)`. -/
def markerStr : String := "\x7b\"name\":\"Bitcoin\",\"price\":"

/-- The marker as a character list. -/
def markerChars : List Char := markerStr.data

/-- Rust `char::is_digit(10)`: true exactly on ASCII `'0'..='9'`. -/
def isAsciiDigit (c : Char) : Bool := 48 ≤ c.toNat && c.toNat ≤ 57

/-- Does `l` start with the pattern `pat`? (Bool version of string prefix.) -/
def startsWith : List Char → List Char → Bool
  | [], _ => true
  | _ :: _, [] => false
  | p :: ps, c :: cs => p == c && startsWith ps cs

/-- Rust `str::find(pat)`: index of the first occurrence of `pat`, if any. -/
def findSub (pat : List Char) : List Char → Option Nat
  | [] => if startsWith pat [] then some 0 else none
  | c :: rest =>
    if startsWith pat (c :: rest) then some 0
    else Option.map (fun n => n + 1) (findSub pat rest)

/-- Numeric value of a digit string, as accumulated left to right. -/
def natOfDigits (l : List Char) : Nat := l.foldl (fun a c => a * 10 + (c.toNat - 48)) 0

/-- Model of `str::parse::<f64>` restricted to the all-digit strings produced
by the `take_while` scan: it fails exactly on the empty string, and a
successful parse is represented by the exact numeric value of the run.  The
`f64` the program actually returns is the IEEE-754 rounding of this value;
see `f64Overflows` for the values whose rounding is +inf. -/
def parsePrice (l : List Char) : Option Nat :=
  if l.isEmpty then none else some (natOfDigits l)

/-- Behaviour of Rust `str::parse::<f64>` on a non-empty decimal digit run
under IEEE-754 round-to-nearest-even: the parse always succeeds, and the
resulting double is +inf exactly when the run's value is at least
2^1024 - 2^970, the overflow threshold above the largest finite double
(2 - 2^-52) * 2^1023.  So `FindResult.found v` stands for the program's
`Some(v rounded to f64)`, which is the non-finite +inf when this predicate
holds. -/
def f64Overflows (v : Nat) : Bool := 2 ^ 1024 - 2 ^ 970 ≤ v

/-- Can `&s[..n]` be taken from a string whose characters are `l`?  Rust
slicing panics unless at least `n` bytes remain and byte offset `n` is a
character boundary; this walks the characters, consuming their UTF-8 sizes,
and succeeds exactly when some character prefix covers `n` bytes. -/
def sliceOk : Nat → List Char → Bool
  | 0, _ => true
  | _ + 1, [] => false
  | n + 1, c :: cs => if c.utf8Size ≤ n + 1 then sliceOk (n + 1 - c.utf8Size) cs else false

/-- Embedding of `find_price` (src/scrap.rs:128-140).  `text.find(marker)`
gives the first occurrence of the marker (Rust's byte index and this
model's character index address the same occurrence); `tail =
&text[start + 26..]` drops exactly the 26-byte, 26-character ASCII marker
occurrence itself; `dbg!(&tail[..42])` panics unless 42 bytes remain in
`tail` with byte offset 42 on a character boundary; otherwise the longest
ASCII-digit run at the head of `tail` is parsed. -/
def find_price (text : List Char) : FindResult :=
  match findSub markerChars text with
  | none => FindResult.notFound
  | some start =>
    if sliceOk 42 (text.drop (start + 26)) then
      match parsePrice ((text.drop (start + 26)).takeWhile isAsciiDigit) with
      | none => FindResult.notFound
      | some p => FindResult.found p
    else FindResult.panicked

example : markerChars.length = 26 := by decide

theorem markerChars_length : markerChars.length = 26 := by decide

theorem startsWith_take (p : List Char) : ∀ l : List Char,
    startsWith p l = true ↔ l.take p.length = p := by
  induction p with
  | nil => intro l; simp [startsWith]
  | cons a ps ih =>
    intro l
    cases l with
    | nil => simp [startsWith]
    | cons c cs =>
      simp only [startsWith, List.length_cons, List.take_succ_cons, Bool.and_eq_true,
        beq_iff_eq, List.cons.injEq, ih cs]
      constructor
      · rintro ⟨h1, h2⟩; exact ⟨h1.symm, h2⟩
      · rintro ⟨h1, h2⟩; exact ⟨h1.symm, h2⟩

theorem findSub_eq_some (pat : List Char) : ∀ (l : List Char) (n : Nat),
    startsWith pat (l.drop n) = true →
    (∀ m, m < n → startsWith pat (l.drop m) = false) →
    findSub pat l = some n := by
  intro l
  induction l with
  | nil =>
    intro n h1 h2
    cases n with
    | zero => simp only [List.drop_nil] at h1; simp [findSub, h1]
    | succ k =>
      have := h2 0 (Nat.succ_pos k)
      simp only [List.drop_nil] at h1 this
      rw [h1] at this; exact absurd this (by simp)
  | cons c rest ih =>
    intro n h1 h2
    cases n with
    | zero =>
      simp only [List.drop_zero] at h1
      simp [findSub, h1]
    | succ k =>
      have h0 : startsWith pat (c :: rest) = false := by
        have := h2 0 (Nat.succ_pos k)
        simpa using this
      have hrec : findSub pat rest = some k := by
        apply ih k
        · simpa using h1
        · intro m hm
          have := h2 (m + 1) (by omega)
          simpa using this
      simp [findSub, h0, hrec]

/-- The marker has no nontrivial border: no proper suffix of it is also a
proper prefix, so no occurrence of the marker can straddle the boundary of a
text region that is followed by a literal copy of the marker. -/
theorem marker_no_border :
    ∀ d, d < 26 → 0 < d → markerChars.drop d ≠ markerChars.take (26 - d) := by
  decide

theorem no_marker_straddle (pre rest : List Char)
    (hp : ∀ m, startsWith markerChars (pre.drop m) = false) :
    ∀ m, m < pre.length →
      startsWith markerChars ((pre ++ (markerChars ++ rest)).drop m) = false := by
  intro m hm
  by_contra hcon
  have htrue : startsWith markerChars ((pre ++ (markerChars ++ rest)).drop m) = true := by
    cases hb : startsWith markerChars ((pre ++ (markerChars ++ rest)).drop m) with
    | false => exact absurd hb hcon
    | true => rfl
  rw [startsWith_take, markerChars_length] at htrue
  rw [List.drop_append_of_le_length (Nat.le_of_lt hm)] at htrue
  have hdlen : (pre.drop m).length = pre.length - m := List.length_drop ..
  by_cases hd : 26 ≤ (pre.drop m).length
  · rw [List.take_append_of_le_length hd] at htrue
    have : startsWith markerChars (pre.drop m) = true := by
      rw [startsWith_take, markerChars_length]; exact htrue
    rw [hp m] at this; exact absurd this (by simp)
  · push_neg at hd
    rw [List.take_append_eq_append_take,
        List.take_of_length_le (Nat.le_of_lt hd),
        @List.take_append_of_le_length Char markerChars rest (26 - (pre.drop m).length)
          (by rw [markerChars_length]; omega)] at htrue
    have hdrop := congrArg (List.drop (pre.drop m).length) htrue.symm
    rw [List.drop_left' rfl] at hdrop
    have hdpos : 0 < (pre.drop m).length := by omega
    exact marker_no_border (pre.drop m).length hd hdpos hdrop


example : find_price (markerChars ++ "64123.50USD".data ++ (List.replicate 31 'f')) =
    FindResult.found 64123 := by decide

theorem findSub_marker_append (pre rest : List Char)
    (hp : ∀ m, startsWith markerChars (pre.drop m) = false) :
    findSub markerChars (pre ++ (markerChars ++ rest)) = some pre.length := by
  apply findSub_eq_some
  · rw [List.drop_left' rfl, startsWith_take,
      List.take_append_of_le_length (by rw [markerChars_length]),
      List.take_of_length_le (Nat.le_refl _)]
  · exact fun m hm => no_marker_straddle pre rest hp m hm

theorem takeWhile_eq_left (p : Char → Bool) (d sfx : List Char)
    (hd : ∀ c ∈ d, p c = true) (hs : ∀ c ∈ sfx.take 1, p c = false) :
    (d ++ sfx).takeWhile p = d := by
  induction d with
  | nil =>
    cases sfx with
    | nil => simp
    | cons c cs =>
      have hc : p c = false := hs c (by simp)
      simp [List.takeWhile_cons, hc]
  | cons a as ih =>
    have ha : p a = true := hd a (by simp)
    have ih2 := ih (fun c hc => hd c (by simp [hc]))
    simp [List.takeWhile_cons, ha, ih2]

theorem takeWhile_sat (p : Char → Bool) :
    ∀ l : List Char, ∀ c ∈ l.takeWhile p, p c = true := by
  intro l
  induction l with
  | nil => intro c hc; simp at hc
  | cons a as ih =>
    intro c hc
    rw [List.takeWhile_cons] at hc
    by_cases ha : p a = true
    · rw [if_pos ha] at hc
      rcases List.mem_cons.mp hc with h | h
      · rw [h]; exact ha
      · exact ih c h
    · rw [if_neg (by simpa using ha)] at hc
      simp at hc

theorem find_price_eq_of_findSub (text : List Char) (n : Nat)
    (h : findSub markerChars text = some n) :
    find_price text =
      if sliceOk 42 (text.drop (n + 26)) then
        match parsePrice ((text.drop (n + 26)).takeWhile isAsciiDigit) with
        | none => FindResult.notFound
        | some p => FindResult.found p
      else FindResult.panicked := by
  unfold find_price
  rw [h]

/-! ### Claims about the price-extraction algorithm -/

/-- Input for claim C3: the marker followed by only three characters.  The
page body is cut short, so fewer than 42 bytes follow the marker. -/
def c3Input : List Char := markerChars ++ "123".data

/-- Claim C3: the spec requires extraction to fail cleanly ("not found")
whenever the text after the first marker occurrence does not have the
expected shape, including being shorter than the 42-character window.  The
code instead panics: `dbg!(&tail[..42])` slices 42 bytes unconditionally.
This theorem evaluates the code at the failing input. -/
theorem find_price_short_tail_panics : find_price c3Input = FindResult.panicked := by
  decide

/-- Body of the spec's end-to-end example, claim C4: arbitrary text, the
marker, then 26 padding characters, then the quoted price `"64123.50USD"`
and a suffix. -/
def c4PaddedBody : List Char :=
  "...".data ++ markerChars ++ "xxxxxxxxxxxxxxxxxxxxxxxxxx".data ++
    "\"64123.50USD\"".data ++ "...\x7d".data

/-- Claim C4 counterexample: on the spec's example body with 26 padding
characters between the marker and the price, extraction does not yield
64123; the digit scan starts immediately after the marker, hits the padding
and reports "not found". -/
theorem find_price_padding_counterexample :
    find_price c4PaddedBody = FindResult.notFound ∧
      find_price c4PaddedBody ≠ FindResult.found 64123 := by
  decide

/-- Corrected body for claim C4: the skip constant 26 equals the marker
length, so the digits must begin immediately after the marker; at least 42
bytes must follow the marker (here 15 + 27 ASCII characters). -/
def c4Body : List Char :=
  "...".data ++ markerChars ++ "64123.50USD\"...".data ++ List.replicate 27 'f'

/-- Claim C4 (amended): for a body consisting of text, the marker, then
`64123.50USD"` immediately after the marker (no padding: the fixed 26-byte
offset is measured from the start of the marker occurrence and equals the
marker's own length) with at least 42 bytes following the marker,
extraction yields 64123, the digit-only scan stopping at the dot. -/
theorem find_price_end_to_end_example : find_price c4Body = FindResult.found 64123 := by
  decide

/-- Input for the claim C5 counterexample: marker followed by the single
digit 5 (a non-empty digit run at the fixed offset, empty pre and suffix). -/
def c5Input : List Char := markerChars ++ "5".data

/-- Claim C5 counterexample: with pre = "", digits = "5", suffix = "" the
claim says `find_price` returns the parsed digits 5; instead the code
panics on the 42-byte debug slice. -/
theorem find_price_short_text_counterexample :
    find_price c5Input = FindResult.panicked ∧ find_price c5Input ≠ FindResult.found 5 := by
  decide

/-- Claim C5 (amended): for any text pre ++ marker ++ digits ++ suffix where
the digit run is non-empty, pre contains no marker occurrence, the suffix
does not begin with a digit, and the 42-byte debug slice of the text after
the marker succeeds (at least 42 bytes follow the marker, with byte offset
42 on a character boundary), `find_price` returns the digit run parsed as a
float — represented by the run's exact value — regardless of pre and
suffix content. -/
theorem find_price_marker_present (pre ds sfx : List Char)
    (hp : ∀ m, startsWith markerChars (pre.drop m) = false)
    (hne : ds ≠ [])
    (hd : ∀ c ∈ ds, isAsciiDigit c = true)
    (hs : ∀ c ∈ sfx.take 1, isAsciiDigit c = false)
    (hslice : sliceOk 42 (ds ++ sfx) = true) :
    find_price (pre ++ markerChars ++ ds ++ sfx) = FindResult.found (natOfDigits ds) := by
  simp only [List.append_assoc]
  have hfind := findSub_marker_append pre (ds ++ sfx) hp
  have htail : (pre ++ (markerChars ++ (ds ++ sfx))).drop (pre.length + 26) = ds ++ sfx := by
    rw [← List.append_assoc]
    exact List.drop_left' (by rw [List.length_append, markerChars_length])
  rw [find_price_eq_of_findSub _ pre.length hfind, htail]
  rw [if_pos hslice]
  rw [takeWhile_eq_left isAsciiDigit ds sfx hd hs]
  cases ds with
  | nil => exact absurd rfl hne
  | cons a as => rfl

/-- Claim C5 witness: a concrete instance of the marker-present property. -/
theorem find_price_marker_present_witness :
    find_price ([] ++ markerChars ++ "64123".data ++ (".50USD".data ++ List.replicate 36 'f')) =
      FindResult.found (natOfDigits "64123".data) :=
  find_price_marker_present [] "64123".data (".50USD".data ++ List.replicate 36 'f')
    (fun m => by rw [List.drop_nil]; decide)
    (by decide) (by decide) (by decide) (by decide)

/-- Input for the claim C6 counterexample: marker immediately followed by a
single non-digit character. -/
def c6Input : List Char := markerChars ++ "x".data

/-- Claim C6 counterexample: the marker is immediately followed by zero
ASCII decimal digits, and the claim says `find_price` reports "not found";
instead the code panics because fewer than 42 bytes follow the marker. -/
theorem find_price_no_digits_counterexample :
    find_price c6Input = FindResult.panicked ∧ find_price c6Input ≠ FindResult.notFound := by
  decide

/-- Claim C6 (amended): whenever the first marker occurrence is followed by
zero ASCII digits at the fixed offset (the first character of the tail is
not a digit) and the 42-byte debug slice of the tail succeeds (at least 42
bytes remain, byte offset 42 on a character boundary), `find_price` reports
"not found"; in particular it never returns a price of 0 in that case. -/
theorem find_price_no_digits (text : List Char) (n : Nat)
    (hfind : findSub markerChars text = some n)
    (hslice : sliceOk 42 (text.drop (n + 26)) = true)
    (hs : ∀ c ∈ (text.drop (n + 26)).take 1, isAsciiDigit c = false) :
    find_price text = FindResult.notFound := by
  rw [find_price_eq_of_findSub text n hfind]
  rw [if_pos hslice]
  cases htail : text.drop (n + 26) with
  | nil => rw [htail] at hslice; exact absurd hslice (by decide)
  | cons c cs =>
    have hc : isAsciiDigit c = false := by
      apply hs; rw [htail]; simp
    simp [List.takeWhile_cons, hc, parsePrice]

/-- Claim C6 witness: marker followed by 42 non-digit characters. -/
theorem find_price_no_digits_witness :
    find_price (markerChars ++ List.replicate 42 'x') = FindResult.notFound :=
  find_price_no_digits (markerChars ++ List.replicate 42 'x') 0
    (by decide) (by decide) (by decide)

/-- Input for the claim C10 counterexample: the marker followed by a run of
309 nines, whose value exceeds the largest finite IEEE-754 double. -/
def overflowInput : List Char := markerChars ++ List.replicate 309 '9'

set_option maxRecDepth 4000 in
set_option exponentiation.threshold 1100 in
/-- Claim C10 counterexample: the claim says a returned price can never be
non-finite, but on the marker followed by 309 nines the scan parses a digit
run whose value is at or above the f64 overflow threshold, so the program's
`parse::<f64>` returns Ok(+inf) and `find_price` returns Some(+inf) — a
non-finite price. -/
theorem find_price_overflow_counterexample :
    find_price overflowInput = FindResult.found (natOfDigits (List.replicate 309 '9')) ∧
    f64Overflows (natOfDigits (List.replicate 309 '9')) = true := by
  decide

/-- Claim C10 (amended): whenever `find_price` returns a price, that price
is the float parse of a non-empty run of ASCII decimal digits — represented
here by the run's exact numeric value — hence never negative and never
fractional; it is, however, not always finite: a run whose value reaches
the f64 overflow threshold (about 309 digits) parses to +inf, as the
counterexample shows. -/
theorem find_price_found_digit_run (text : List Char) (p : Nat)
    (h : find_price text = FindResult.found p) :
    ∃ l : List Char, l ≠ [] ∧ (∀ c ∈ l, isAsciiDigit c = true) ∧ p = natOfDigits l := by
  cases hf : findSub markerChars text with
  | none =>
    unfold find_price at h
    rw [hf] at h
    simp at h
  | some n =>
    rw [find_price_eq_of_findSub text n hf] at h
    by_cases hsl : sliceOk 42 (text.drop (n + 26)) = true
    · rw [if_pos hsl] at h
      cases hpp : parsePrice ((text.drop (n + 26)).takeWhile isAsciiDigit) with
      | none => rw [hpp] at h; simp at h
      | some q =>
        rw [hpp] at h
        have hq : q = p := by simpa using h
        subst hq
        unfold parsePrice at hpp
        by_cases hem : ((text.drop (n + 26)).takeWhile isAsciiDigit).isEmpty = true
        · rw [if_pos hem] at hpp; exact absurd hpp (by simp)
        · rw [if_neg hem] at hpp
          refine ⟨(text.drop (n + 26)).takeWhile isAsciiDigit, ?_, ?_, ?_⟩
          · intro hnil; rw [hnil] at hem; exact hem rfl
          · exact takeWhile_sat isAsciiDigit _
          · exact (Option.some.inj hpp).symm
    · rw [if_neg hsl] at h
      exact absurd h (by simp)

/-- Claim C10 witness: the concrete price 7 extracted from a well-formed
body is the value of a non-empty digit run. -/
theorem find_price_found_digit_run_witness :
    ∃ l : List Char, l ≠ [] ∧ (∀ c ∈ l, isAsciiDigit c = true) ∧ 7 = natOfDigits l :=
  find_price_found_digit_run (markerChars ++ ("7".data ++ List.replicate 41 'x')) 7 (by decide)

example : find_price "no marker here".data = FindResult.notFound := by decide

example : find_price (markerChars ++ ("1".data ++ List.replicate 41 'é')) =
    FindResult.panicked := by decide

example : find_price (markerChars ++ ("x".data ++ List.replicate 21 'é' ++
    List.replicate 20 'a')) = FindResult.panicked := by decide

example : find_price (markerChars ++ List.replicate 21 'é') =
    FindResult.notFound := by decide

example : find_price (markerChars ++ "9".data) = FindResult.panicked := by decide

/-! ### Embedding of the session-refreshing request agent

`query_price` (src/scrap.rs:10-35), `Agent::request` (56-63),
`Agent::request_inner` (65-72) and `Agent::refresh_data` (74-125) are
modelled as state-passing functions over an `Env` that supplies the outcome
of the i-th page request and the i-th cookie-service response.  The state
counts page requests and refresh calls and records them in order in a trace.
-/

/-- Model of serde_json `JsonValue`. -/
inductive Json where
  | null : Json
  | jbool : Bool → Json
  | num : Int → Json
  | str : String → Json
  | arr : List Json → Json
  | obj : List (String × Json) → Json

/-- `JsonValue::as_object`. -/
def Json.asObject : Json → Option (List (String × Json))
  | .obj l => some l
  | _ => none

/-- `JsonValue::as_str`. -/
def Json.asStr : Json → Option String
  | .str s => some s
  | _ => none

/-- Is the value a JSON string?  (`as_str().is_some()`.) -/
def Json.isStr : Json → Bool
  | .str _ => true
  | _ => false

/-- `Map::get` on a JSON object. -/
def objGet (l : List (String × Json)) (key : String) : Option Json :=
  (l.find? (fun kv => kv.1 == key)).map (fun kv => kv.2)

/-- The `cookies` field of the response, when present and an object
(`json.as_object().and_then(get "cookies").and_then(as_object)`). -/
def jsonCookies (j : Json) : Option (List (String × Json)) :=
  (j.asObject.bind (fun o => objGet o "cookies")).bind Json.asObject

/-- The `user_agent` field of the response, when present and a string. -/
def jsonUserAgent (j : Json) : Option String :=
  (j.asObject.bind (fun o => objGet o "user_agent")).bind Json.asStr

/-- A byte acceptable to `http::HeaderValue::from_str`: tab, or any byte
that is at least 32 and not DEL (multi-byte UTF-8 bytes are all ≥ 128 and
accepted, so the check lifts to characters). -/
def isValidHeaderChar (c : Char) : Bool :=
  c.toNat == 9 || (32 ≤ c.toNat && c.toNat != 127)

/-- One `"{k}={v}"` entry of the cookie header (only evaluated on string
values). -/
def cookiePair (kv : String × Json) : String :=
  kv.1 ++ "=" ++ (Json.asStr kv.2).getD ""

/-- The joined cookie header value `cookies.join(";")`. -/
def cookieHeaderValue (l : List (String × Json)) : String :=
  String.intercalate ";" (l.map cookiePair)

/-- The three ways `refresh_data` returns `Err`: the cookie-service request
failed, its body was not valid JSON, or a cookie/user-agent value was not a
valid HTTP header value (`HeaderValue::from_str` failed). -/
inductive RefreshErrKind where
  | netErr : RefreshErrKind
  | badJson : RefreshErrKind
  | badHeader : RefreshErrKind
  deriving DecidableEq

/-- Result of one `refresh_data` call: a panic (`.expect("Must return
string cookie.")` on a non-string cookie value), an `Err`, or success. -/
inductive RefreshOutcome where
  | panicked : RefreshOutcome
  | error : RefreshErrKind → RefreshOutcome
  | ok : RefreshOutcome
  deriving DecidableEq

/-- What the cookie-issuing side-channel gives back for one refresh:
transport failure, malformed JSON, or a parsed JSON value. -/
inductive CookieResp where
  | netErr : CookieResp
  | badJson : CookieResp
  | ok : Json → CookieResp

/-- The user-agent half of `refresh_data`: reached only after the cookie
loop completed and the cookie header (if any) was accepted.  Missing or
non-string `user_agent` is ignored; an invalid header value is an `Err`.
The final `ClientBuilder::build` is modelled as infallible. -/
def afterCookies (j : Json) : RefreshOutcome :=
  match jsonUserAgent j with
  | some ua => if ua.data.all isValidHeaderChar then RefreshOutcome.ok
               else RefreshOutcome.error RefreshErrKind.badHeader
  | none => RefreshOutcome.ok

/-- Embedding of `Agent::refresh_data` (src/scrap.rs:74-125) applied to one
cookie-service response.  A missing `cookies` field, or one that is not an
object, contributes no cookie header; a present cookie value that is not a
string panics via `expect`; an invalid assembled header value is an `Err`. -/
def processCookie : CookieResp → RefreshOutcome
  | CookieResp.netErr => RefreshOutcome.error RefreshErrKind.netErr
  | CookieResp.badJson => RefreshOutcome.error RefreshErrKind.badJson
  | CookieResp.ok j =>
    match jsonCookies j with
    | some cl =>
      if cl.all (fun kv => kv.2.isStr) then
        if (cookieHeaderValue cl).data.all isValidHeaderChar then afterCookies j
        else RefreshOutcome.error RefreshErrKind.badHeader
      else RefreshOutcome.panicked
    | none => afterCookies j

/-- Outcome of one page request (`request_inner`): a transport-level
`reqwest` error, or a response with a status code and a body. -/
inductive PageResult where
  | err : PageResult
  | status : Nat → List Char → PageResult
  deriving DecidableEq

/-- One observable event of a `query_price` execution. -/
inductive Ev where
  | page : PageResult → Ev
  | refreshEv : RefreshOutcome → Ev
  deriving DecidableEq

/-- Counters and trace threaded through an execution. -/
structure St where
  pages : Nat
  refreshes : Nat
  trace : List Ev
  deriving DecidableEq

/-- The state at the start of a `query_price` call. -/
def initSt : St := ⟨0, 0, []⟩

/-- The environment: outcome of the i-th page request and the i-th
cookie-service response (0-indexed, in execution order). -/
structure Env where
  page : Nat → PageResult
  cookie : Nat → CookieResp

/-- `StatusCode::is_success`: 2xx. -/
def isSuccess (code : Nat) : Bool := 200 ≤ code && code < 300

/-- The error kinds `query_price` can surface (spec section 7 groups
`transportErr` and `statusErr` as RequestError). -/
inductive FetchError where
  | refreshErr : RefreshErrKind → FetchError
  | transportErr : FetchError
  | statusErr : Nat → FetchError
  | priceNotFound : FetchError
  deriving DecidableEq

/-- Result of a modelled computation: success, an `Err` propagated to the
caller, or a Rust panic. -/
inductive Outcome (α : Type) where
  | ok : α → Outcome α
  | err : FetchError → Outcome α
  | panic : Outcome α
  deriving DecidableEq

/-- Does the outcome carry the spec's RequestError (transport failure or
error status of the page request)? -/
def isRequestError : Outcome Nat → Bool
  | Outcome.err FetchError.transportErr => true
  | Outcome.err (FetchError.statusErr _) => true
  | _ => false

/-- Does the outcome carry a RefreshError? -/
def isRefreshErrorOutcome : Outcome Nat → Bool
  | Outcome.err (FetchError.refreshErr _) => true
  | _ => false

/-- `Agent::request_inner` (src/scrap.rs:65-72): perform one page request. -/
def requestInner (env : Env) (s : St) : PageResult × St :=
  (env.page s.pages, ⟨s.pages + 1, s.refreshes, s.trace ++ [Ev.page (env.page s.pages)]⟩)

/-- One `Agent::refresh_data` call against the next cookie response. -/
def refreshData (env : Env) (s : St) : RefreshOutcome × St :=
  (processCookie (env.cookie s.refreshes),
    ⟨s.pages, s.refreshes + 1, s.trace ++ [Ev.refreshEv (processCookie (env.cookie s.refreshes))]⟩)

/-- `Agent::request` (src/scrap.rs:56-63): run `request_inner`; if it
returned `Err`, run `refresh_data` (propagating its `Err`); then run
`request_inner` again unconditionally — note that a successful first
response is discarded and the request repeated. -/
def agentRequest (env : Env) (s : St) : Outcome (Nat × List Char) × St :=
  match requestInner env s with
  | (PageResult.err, s1) =>
    match refreshData env s1 with
    | (RefreshOutcome.panicked, s2) => (Outcome.panic, s2)
    | (RefreshOutcome.error k, s2) => (Outcome.err (FetchError.refreshErr k), s2)
    | (RefreshOutcome.ok, s2) =>
      match requestInner env s2 with
      | (PageResult.err, s3) => (Outcome.err FetchError.transportErr, s3)
      | (PageResult.status c b, s3) => (Outcome.ok (c, b), s3)
  | (PageResult.status _ _, s1) =>
    match requestInner env s1 with
    | (PageResult.err, s2) => (Outcome.err FetchError.transportErr, s2)
    | (PageResult.status c b, s2) => (Outcome.ok (c, b), s2)

/-- `StatusCode::is_client_error() || is_server_error()`, the statuses on
which `Response::error_for_status` returns `Err`: exactly 400 through 599.
Any other status (1xx, 3xx, and the 600-999 range hyper still delivers)
passes through. -/
def isErrorStatus (code : Nat) : Bool := 400 ≤ code && code ≤ 599

/-- `resp.error_for_status()?` then body extraction: a 4xx/5xx status is a
request error; any other status — including a non-success one outside
400-599 — proceeds, and the body text is handed to `find_price`, whose
failure is the distinct price-not-found error. -/
def finishResp (resp : Nat × List Char) : Outcome Nat :=
  if isErrorStatus resp.1 then Outcome.err (FetchError.statusErr resp.1)
  else
    match find_price resp.2 with
    | FindResult.panicked => Outcome.panic
    | FindResult.notFound => Outcome.err FetchError.priceNotFound
    | FindResult.found p => Outcome.ok p

/-- `query_price` (src/scrap.rs:10-35): `agent.request()`; if the response
status is not a success, `agent.refresh_data()` and `agent.request()`
again; then `error_for_status`, body text and price extraction. -/
def queryPrice (env : Env) (s : St) : Outcome Nat × St :=
  match agentRequest env s with
  | (Outcome.panic, s1) => (Outcome.panic, s1)
  | (Outcome.err e, s1) => (Outcome.err e, s1)
  | (Outcome.ok resp, s1) =>
    if isSuccess resp.1 then (finishResp resp, s1)
    else
      match refreshData env s1 with
      | (RefreshOutcome.panicked, s2) => (Outcome.panic, s2)
      | (RefreshOutcome.error k, s2) => (Outcome.err (FetchError.refreshErr k), s2)
      | (RefreshOutcome.ok, s2) =>
        match agentRequest env s2 with
        | (Outcome.panic, s3) => (Outcome.panic, s3)
        | (Outcome.err e, s3) => (Outcome.err e, s3)
        | (Outcome.ok resp2, s3) => (finishResp resp2, s3)

/-- A page that always fails at transport level; cookie service healthy. -/
def alwaysErrEnv : Env :=
  ⟨fun _ => PageResult.err, fun _ => CookieResp.ok (Json.obj [])⟩

/-- A page that always answers 403; cookie service healthy. -/
def always403Env : Env :=
  ⟨fun _ => PageResult.status 403 [], fun _ => CookieResp.ok (Json.obj [])⟩

example : (queryPrice alwaysErrEnv initSt).1 = Outcome.err FetchError.transportErr := by decide

example : (queryPrice alwaysErrEnv initSt).2.pages = 2 ∧
    (queryPrice alwaysErrEnv initSt).2.refreshes = 1 := by decide

example : (queryPrice always403Env initSt).2.pages = 4 ∧
    (queryPrice always403Env initSt).2.refreshes = 1 ∧
    (queryPrice always403Env initSt).1 = Outcome.err (FetchError.statusErr 403) := by decide

theorem refreshData_fst (env : Env) (s : St) :
    (refreshData env s).1 = processCookie (env.cookie s.refreshes) := rfl

theorem refreshData_snd (env : Env) (s : St) :
    (refreshData env s).2 =
      ⟨s.pages, s.refreshes + 1,
        s.trace ++ [Ev.refreshEv (processCookie (env.cookie s.refreshes))]⟩ := rfl

theorem agentRequest_counts (env : Env) (s : St) :
    (agentRequest env s).2.pages ≤ s.pages + 2 ∧
    (agentRequest env s).2.refreshes ≤ s.refreshes + 1 := by
  unfold agentRequest requestInner refreshData
  cases env.page s.pages with
  | err =>
    dsimp only
    cases processCookie (env.cookie s.refreshes) with
    | panicked => dsimp only; omega
    | error k => dsimp only; omega
    | ok =>
      dsimp only
      cases env.page (s.pages + 1) with
      | err => dsimp only; omega
      | status c b => dsimp only; omega
  | status c b =>
    dsimp only
    cases env.page (s.pages + 1) with
    | err => dsimp only; omega
    | status c2 b2 => dsimp only; omega

theorem queryPrice_counts (env : Env) (s : St) :
    (queryPrice env s).2.pages ≤ s.pages + 4 ∧
    (queryPrice env s).2.refreshes ≤ s.refreshes + 3 := by
  unfold queryPrice
  rcases h1 : agentRequest env s with ⟨o1, s1⟩
  have hc1 := agentRequest_counts env s
  rw [h1] at hc1
  dsimp only at hc1
  cases o1 with
  | panic => dsimp only; omega
  | err e => dsimp only; omega
  | ok resp =>
    dsimp only
    by_cases hS : isSuccess resp.1
    · rw [if_pos hS]; dsimp only; omega
    · rw [if_neg hS]
      rcases h2 : refreshData env s1 with ⟨ro, s2⟩
      have hs2 := refreshData_snd env s1
      rw [h2] at hs2
      dsimp only at hs2
      cases ro with
      | panicked => dsimp only; rw [hs2]; dsimp only; omega
      | error k => dsimp only; rw [hs2]; dsimp only; omega
      | ok =>
        dsimp only
        rcases h3 : agentRequest env s2 with ⟨o3, s3⟩
        have hc3 := agentRequest_counts env s2
        rw [h3, hs2] at hc3
        dsimp only at hc3
        cases o3 with
        | panic => dsimp only; omega
        | err e => dsimp only; omega
        | ok resp2 => dsimp only; omega

/-! ### Claim C1: retry/refresh bounds -/

/-- A page endpoint that always fails: transport errors on requests 0 and
2, HTTP 403 on requests 1 and 3; cookie service healthy. -/
def mixedFailEnv : Env :=
  ⟨fun i =>
    match i with
    | 0 => PageResult.err
    | 1 => PageResult.status 403 []
    | 2 => PageResult.err
    | _ => PageResult.status 403 [],
   fun _ => CookieResp.ok (Json.obj [])⟩

/-- Claim C1 counterexample: against a page endpoint that always fails
(with a healthy cookie side-channel), `query_price` enters the refresh step
three times — not at most once — and performs four page requests — not
exactly two — with three cookie-side-channel calls, before returning the
request error. -/
theorem queryPrice_retry_counterexample :
    (queryPrice mixedFailEnv initSt).2.refreshes = 3 ∧
    (queryPrice mixedFailEnv initSt).2.pages = 4 ∧
    ¬ ((queryPrice mixedFailEnv initSt).2.refreshes ≤ 1) ∧
    isRequestError (queryPrice mixedFailEnv initSt).1 = true := by
  decide

/-- Claim C1 (amended): every `query_price` execution performs at most four
page requests and enters the refresh step at most three times; against a
page endpoint that always fails at transport level (with a healthy cookie
side-channel), it performs exactly two page requests and exactly one
cookie-side-channel call and returns the transport RequestError; against
one that always answers a fixed client/server error status (400-599), it
performs exactly four page requests and one cookie call and returns the
status RequestError; a non-success status outside 400-599 (e.g. 650)
instead passes `error_for_status` after the same four requests and one
cookie call, and with an empty body the call ends in the price-not-found
error. -/
theorem queryPrice_bounded_retry :
    (∀ env : Env,
      (queryPrice env initSt).2.pages ≤ 4 ∧ (queryPrice env initSt).2.refreshes ≤ 3) ∧
    (∀ env : Env, (∀ i, env.page i = PageResult.err) →
      processCookie (env.cookie 0) = RefreshOutcome.ok →
      (queryPrice env initSt).1 = Outcome.err FetchError.transportErr ∧
      (queryPrice env initSt).2.pages = 2 ∧ (queryPrice env initSt).2.refreshes = 1) ∧
    (∀ env : Env, ∀ c : Nat, ∀ b : List Char,
      (∀ i, env.page i = PageResult.status c b) →
      400 ≤ c → c ≤ 599 →
      processCookie (env.cookie 0) = RefreshOutcome.ok →
      (queryPrice env initSt).1 = Outcome.err (FetchError.statusErr c) ∧
      (queryPrice env initSt).2.pages = 4 ∧ (queryPrice env initSt).2.refreshes = 1) ∧
    (∀ env : Env, ∀ c : Nat,
      (∀ i, env.page i = PageResult.status c []) →
      600 ≤ c →
      processCookie (env.cookie 0) = RefreshOutcome.ok →
      (queryPrice env initSt).1 = Outcome.err FetchError.priceNotFound ∧
      (queryPrice env initSt).2.pages = 4 ∧ (queryPrice env initSt).2.refreshes = 1) := by
  refine ⟨?_, ?_, ?_, ?_⟩
  · intro env
    have h := queryPrice_counts env initSt
    simpa [initSt] using h
  · intro env hpage hc
    have hA : agentRequest env initSt =
        (Outcome.err FetchError.transportErr,
          ⟨2, 1, [Ev.page PageResult.err, Ev.refreshEv RefreshOutcome.ok,
                  Ev.page PageResult.err]⟩) := by
      unfold agentRequest requestInner refreshData initSt
      dsimp only
      rw [hpage 0]
      dsimp only
      rw [hc]
      dsimp only
      rw [hpage 1]
      simp
    have hq : queryPrice env initSt =
        (Outcome.err FetchError.transportErr,
          ⟨2, 1, [Ev.page PageResult.err, Ev.refreshEv RefreshOutcome.ok,
                  Ev.page PageResult.err]⟩) := by
      unfold queryPrice
      rw [hA]
    rw [hq]
    exact ⟨rfl, rfl, rfl⟩
  · intro env c b hpage h400 h599 hc
    have hfail : isSuccess c = false := by
      simp [isSuccess]
      omega
    have hErr : isErrorStatus c = true := by
      simp [isErrorStatus]
      omega
    have hA : ∀ s : St, agentRequest env s =
        (Outcome.ok (c, b),
          ⟨s.pages + 2, s.refreshes,
            s.trace ++ [Ev.page (PageResult.status c b), Ev.page (PageResult.status c b)]⟩) := by
      intro s
      unfold agentRequest requestInner refreshData
      rw [hpage s.pages]
      dsimp only
      rw [hpage (s.pages + 1)]
      simp
    have hq : queryPrice env initSt =
        (Outcome.err (FetchError.statusErr c),
          ⟨4, 1, [Ev.page (PageResult.status c b), Ev.page (PageResult.status c b),
                  Ev.refreshEv RefreshOutcome.ok,
                  Ev.page (PageResult.status c b), Ev.page (PageResult.status c b)]⟩) := by
      unfold queryPrice
      rw [hA initSt]
      dsimp only [initSt]
      rw [if_neg (by simp [hfail])]
      unfold refreshData
      rw [hc]
      dsimp only
      rw [hA]
      dsimp only
      unfold finishResp
      dsimp only
      rw [if_pos hErr]
      simp
    rw [hq]
    exact ⟨rfl, rfl, rfl⟩
  · intro env c hpage h600 hc
    have hfail : isSuccess c = false := by
      simp [isSuccess]
      omega
    have hnErr : ¬ isErrorStatus c = true := by
      simp [isErrorStatus]
      omega
    have hA : ∀ s : St, agentRequest env s =
        (Outcome.ok (c, ([] : List Char)),
          ⟨s.pages + 2, s.refreshes,
            s.trace ++ [Ev.page (PageResult.status c []), Ev.page (PageResult.status c [])]⟩) := by
      intro s
      unfold agentRequest requestInner refreshData
      rw [hpage s.pages]
      dsimp only
      rw [hpage (s.pages + 1)]
      simp
    have hq : queryPrice env initSt =
        (Outcome.err FetchError.priceNotFound,
          ⟨4, 1, [Ev.page (PageResult.status c []), Ev.page (PageResult.status c []),
                  Ev.refreshEv RefreshOutcome.ok,
                  Ev.page (PageResult.status c []), Ev.page (PageResult.status c [])]⟩) := by
      unfold queryPrice
      rw [hA initSt]
      dsimp only [initSt]
      rw [if_neg (by simp [hfail])]
      unfold refreshData
      rw [hc]
      dsimp only
      rw [hA]
      dsimp only
      unfold finishResp
      dsimp only
      rw [if_neg hnErr]
      rw [show find_price ([] : List Char) = FindResult.notFound from by decide]
      simp
    rw [hq]
    exact ⟨rfl, rfl, rfl⟩

/-- Claim C1 witness: the always-transport-failing endpoint instantiating
the bounded-retry theorem. -/
theorem queryPrice_bounded_retry_witness :
    (queryPrice alwaysErrEnv initSt).1 = Outcome.err FetchError.transportErr ∧
    (queryPrice alwaysErrEnv initSt).2.pages = 2 ∧
    (queryPrice alwaysErrEnv initSt).2.refreshes = 1 :=
  queryPrice_bounded_retry.2.1 alwaysErrEnv (fun _ => rfl) rfl

/-! ### Claim C7: a failed refresh aborts the call -/

theorem finishResp_ne_refreshErr (resp : Nat × List Char) (k : RefreshErrKind) :
    finishResp resp ≠ Outcome.err (FetchError.refreshErr k) := by
  unfold finishResp
  by_cases h4 : isErrorStatus resp.1 = true
  · rw [if_pos h4]; simp
  · rw [if_neg h4]
    cases find_price resp.2 <;> simp

theorem agentRequest_trace (env : Env) (s : St) :
    ∃ evs, (agentRequest env s).2.trace = s.trace ++ evs ∧
      (∀ k, Ev.refreshEv (RefreshOutcome.error k) ∈ evs ↔
        (agentRequest env s).1 = Outcome.err (FetchError.refreshErr k)) ∧
      (∀ k, (agentRequest env s).1 = Outcome.err (FetchError.refreshErr k) →
        evs = [Ev.page PageResult.err, Ev.refreshEv (RefreshOutcome.error k)]) := by
  unfold agentRequest requestInner refreshData
  cases env.page s.pages with
  | err =>
    dsimp only
    cases processCookie (env.cookie s.refreshes) with
    | panicked =>
      refine ⟨[Ev.page PageResult.err, Ev.refreshEv RefreshOutcome.panicked], ?_, ?_, ?_⟩
      · simp
      · intro k; simp
      · intro k h; simp at h
    | error k0 =>
      refine ⟨[Ev.page PageResult.err, Ev.refreshEv (RefreshOutcome.error k0)], ?_, ?_, ?_⟩
      · simp
      · intro k
        constructor
        · intro h
          simp at h
          rw [h]
        · intro h
          simp at h
          rw [h]
          simp
      · intro k h
        simp at h
        rw [h]
    | ok =>
      dsimp only
      cases env.page (s.pages + 1) with
      | err =>
        refine ⟨[Ev.page PageResult.err, Ev.refreshEv RefreshOutcome.ok,
                 Ev.page PageResult.err], ?_, ?_, ?_⟩
        · simp
        · intro k; simp
        · intro k h; simp at h
      | status c b =>
        refine ⟨[Ev.page PageResult.err, Ev.refreshEv RefreshOutcome.ok,
                 Ev.page (PageResult.status c b)], ?_, ?_, ?_⟩
        · simp
        · intro k; simp
        · intro k h; simp at h
  | status c b =>
    dsimp only
    cases env.page (s.pages + 1) with
    | err =>
      refine ⟨[Ev.page (PageResult.status c b), Ev.page PageResult.err], ?_, ?_, ?_⟩
      · simp
      · intro k; simp
      · intro k h; simp at h
    | status c2 b2 =>
      refine ⟨[Ev.page (PageResult.status c b), Ev.page (PageResult.status c2 b2)],
              ?_, ?_, ?_⟩
      · simp
      · intro k; simp
      · intro k h; simp at h

/-- Claim C7: if the cookie-issuing side-channel call fails (network error,
malformed JSON, or an invalid cookie/user-agent header value), the whole
`query_price` call fails with that RefreshError, and the failed refresh is
the last event of the execution — in particular no page request (no retry
of the outer request) happens after the failed refresh. -/
theorem queryPrice_refresh_failure (env : Env) (k : RefreshErrKind) :
    (Ev.refreshEv (RefreshOutcome.error k) ∈ (queryPrice env initSt).2.trace →
      (queryPrice env initSt).1 = Outcome.err (FetchError.refreshErr k)) ∧
    ((queryPrice env initSt).1 = Outcome.err (FetchError.refreshErr k) →
      ∃ t, (queryPrice env initSt).2.trace = t ++ [Ev.refreshEv (RefreshOutcome.error k)]) := by
  obtain ⟨evs1, htr1, hmem1, heq1⟩ := agentRequest_trace env initSt
  rcases h1 : agentRequest env initSt with ⟨o1, s1⟩
  rw [h1] at htr1 hmem1 heq1
  dsimp only at htr1 hmem1 heq1
  rw [show initSt.trace = [] from rfl, List.nil_append] at htr1
  unfold queryPrice
  rw [h1]
  cases o1 with
  | panic =>
    dsimp only
    constructor
    · intro hmem
      rw [htr1] at hmem
      exact absurd ((hmem1 k).mp hmem) (by simp)
    · intro h
      exact absurd h (by simp)
  | err e =>
    dsimp only
    constructor
    · intro hmem
      rw [htr1] at hmem
      have he : e = FetchError.refreshErr k := by
        simpa using (hmem1 k).mp hmem
      rw [he]
    · intro h
      have he : e = FetchError.refreshErr k := by simpa using h
      refine ⟨[Ev.page PageResult.err], ?_⟩
      rw [htr1, heq1 k (by rw [he])]
      rfl
  | ok resp =>
    try dsimp only
    by_cases hS : isSuccess resp.1
    · rw [if_pos hS]
      constructor
      · intro hmem
        rw [htr1] at hmem
        exact absurd ((hmem1 k).mp hmem) (by simp)
      · intro h
        exact absurd h (finishResp_ne_refreshErr resp k)
    · rw [if_neg hS]
      unfold refreshData
      try dsimp only
      cases hro : processCookie (env.cookie s1.refreshes) with
      | panicked =>
        dsimp only
        constructor
        · intro hmem
          rcases List.mem_append.mp hmem with hmem | hmem
          · rw [htr1] at hmem
            exact absurd ((hmem1 k).mp hmem) (by simp)
          · simp at hmem
        · intro h
          exact absurd h (by simp)
      | error k0 =>
        dsimp only
        constructor
        · intro hmem
          rcases List.mem_append.mp hmem with hmem | hmem
          · rw [htr1] at hmem
            exact absurd ((hmem1 k).mp hmem) (by simp)
          · simp at hmem
            rw [hmem]
        · intro h
          have hk : k0 = k := by simpa using h
          subst hk
          exact ⟨s1.trace, rfl⟩
      | ok =>
        dsimp only
        obtain ⟨evs2, htr2, hmem2, heq2⟩ :=
          agentRequest_trace env
            ⟨s1.pages, s1.refreshes + 1, s1.trace ++ [Ev.refreshEv RefreshOutcome.ok]⟩
        rcases h3 : agentRequest env
            ⟨s1.pages, s1.refreshes + 1, s1.trace ++ [Ev.refreshEv RefreshOutcome.ok]⟩
          with ⟨o3, s3⟩
        rw [h3] at htr2 hmem2 heq2
        dsimp only at htr2 hmem2 heq2
        cases o3 with
        | panic =>
          dsimp only
          constructor
          · intro hmem
            rw [htr2] at hmem
            rcases List.mem_append.mp hmem with hmem | hmem
            · rcases List.mem_append.mp hmem with hmem | hmem
              · rw [htr1] at hmem
                exact absurd ((hmem1 k).mp hmem) (by simp)
              · simp at hmem
            · exact absurd ((hmem2 k).mp hmem) (by simp)
          · intro h
            exact absurd h (by simp)
        | err e =>
          dsimp only
          constructor
          · intro hmem
            rw [htr2] at hmem
            rcases List.mem_append.mp hmem with hmem | hmem
            · rcases List.mem_append.mp hmem with hmem | hmem
              · rw [htr1] at hmem
                exact absurd ((hmem1 k).mp hmem) (by simp)
              · simp at hmem
            · have he : e = FetchError.refreshErr k := by
                simpa using (hmem2 k).mp hmem
              rw [he]
          · intro h
            have he : e = FetchError.refreshErr k := by simpa using h
            refine ⟨s1.trace ++ [Ev.refreshEv RefreshOutcome.ok, Ev.page PageResult.err], ?_⟩
            rw [htr2, heq2 k (by rw [he])]
            simp
        | ok resp2 =>
          dsimp only
          constructor
          · intro hmem
            rw [htr2] at hmem
            rcases List.mem_append.mp hmem with hmem | hmem
            · rcases List.mem_append.mp hmem with hmem | hmem
              · rw [htr1] at hmem
                exact absurd ((hmem1 k).mp hmem) (by simp)
              · simp at hmem
            · exact absurd ((hmem2 k).mp hmem) (by simp)
          · intro h
            exact absurd h (finishResp_ne_refreshErr resp2 k)

/-- Page always transport-fails; cookie side-channel unreachable. -/
def refreshFailEnv : Env := ⟨fun _ => PageResult.err, fun _ => CookieResp.netErr⟩

/-- Claim C7 witness: with an unreachable cookie service, the failed
refresh makes the whole call return that RefreshError. -/
theorem queryPrice_refresh_failure_witness :
    (queryPrice refreshFailEnv initSt).1 =
      Outcome.err (FetchError.refreshErr RefreshErrKind.netErr) :=
  (queryPrice_refresh_failure refreshFailEnv RefreshErrKind.netErr).1 (by decide)

/-! ### Claim C2: non-string cookie value -/

/-- A cookie-service JSON body whose `cookies` object holds a numeric (not
string) cookie value. -/
def badCookieJson : Json := Json.obj [("cookies", Json.obj [("a", Json.num 1)])]

/-- Page always transport-fails (forcing a refresh); cookie service answers
with a present but non-string cookie value. -/
def badCookieEnv : Env := ⟨fun _ => PageResult.err, fun _ => CookieResp.ok badCookieJson⟩

/-- Claim C2 counterexample: with a present but non-string cookie value the
call does not return a RefreshError — `refresh_data` panics on
`.expect("Must return string cookie.")`, crashing the task. -/
theorem nonstring_cookie_counterexample :
    (queryPrice badCookieEnv initSt).1 = Outcome.panic ∧
    isRefreshErrorOutcome (queryPrice badCookieEnv initSt).1 = false := by
  decide

/-- Claim C2 (amended): whenever the page request fails and the
cookie-issuing service returns a JSON body whose `cookies` object contains
a value that is present but not a string, the `query_price` call panics
(the `expect` aborts the task) after exactly one page request and one
cookie call — it neither succeeds nor retries further, and it does not
return a RefreshError to the caller. -/
theorem queryPrice_nonstring_cookie_panics (env : Env) (j : Json)
    (o : List (String × Json)) (kv : String × Json)
    (hp : env.page 0 = PageResult.err)
    (hj : env.cookie 0 = CookieResp.ok j)
    (hobj : jsonCookies j = some o)
    (hmem : kv ∈ o) (hns : kv.2.isStr = false) :
    (queryPrice env initSt).1 = Outcome.panic ∧
    (queryPrice env initSt).2.pages = 1 ∧
    (queryPrice env initSt).2.refreshes = 1 := by
  have hall : o.all (fun x => x.2.isStr) = false := by
    rw [List.all_eq_false]
    exact ⟨kv, hmem, by rw [hns]; simp⟩
  have hpc : processCookie (env.cookie 0) = RefreshOutcome.panicked := by
    rw [hj]
    unfold processCookie
    dsimp only
    rw [hobj]
    dsimp only
    rw [if_neg (by rw [hall]; simp)]
  have hq : queryPrice env initSt =
      (Outcome.panic,
        ⟨1, 1, [Ev.page PageResult.err, Ev.refreshEv RefreshOutcome.panicked]⟩) := by
    unfold queryPrice agentRequest requestInner refreshData initSt
    dsimp only
    rw [hp]
    dsimp only
    rw [hpc]
    simp
  rw [hq]
  exact ⟨rfl, rfl, rfl⟩

/-- A second non-string cookie value (null) for the witness. -/
def badCookieEnv2 : Env :=
  ⟨fun _ => PageResult.err,
   fun _ => CookieResp.ok (Json.obj [("cookies", Json.obj [("b", Json.null)])])⟩

/-- Claim C2 witness: concrete instance of the non-string-cookie panic. -/
theorem queryPrice_nonstring_cookie_panics_witness :
    (queryPrice badCookieEnv2 initSt).1 = Outcome.panic ∧
    (queryPrice badCookieEnv2 initSt).2.pages = 1 ∧
    (queryPrice badCookieEnv2 initSt).2.refreshes = 1 :=
  queryPrice_nonstring_cookie_panics badCookieEnv2
    (Json.obj [("cookies", Json.obj [("b", Json.null)])])
    [("b", Json.null)] ("b", Json.null)
    rfl rfl rfl (List.mem_singleton.mpr rfl) rfl
